import Mathlib

/-!
Verification of the tap-appstore incremental report-fetch pipeline
(`tap_appstore/client.py` and `tap_appstore/streams.py`).

The Python code is shallowly embedded: strings are Lean `String`s processed
character-by-character (Python `str.split(sep)`, `str.strip()`, `str.lower()`
and `str.replace` are re-implemented on `List Char` so that everything is
executable and kernel-reducible), `datetime.strptime` is modelled for the four
date formats the repository uses, dates in the fetch loop are proleptic
Gregorian ordinals (`Int`), and the generator `get_records` is modelled as a
function producing a trace of events (download calls, yielded records and
`update_stream_state` calls).
-/

/-- Python whitespace characters recognised by `str.strip()` (ASCII subset). -/
def isPySpace (c : Char) : Bool :=
  c = ' ' ∨ c = '\t' ∨ c = '\n' ∨ c = '\r' ∨ c = '\x0b' ∨ c = '\x0c'

/-- `str.strip()` on a character list: drop leading and trailing whitespace. -/
def pyStripChars (cs : List Char) : List Char :=
  ((cs.dropWhile isPySpace).reverse.dropWhile isPySpace).reverse

/-- Model of Python `str.strip()`. -/
def pyStrip (s : String) : String := ⟨pyStripChars s.data⟩

/-- Split a character list on a separator character; like Python
`str.split(sep)` this yields one (possibly empty) group per separator gap. -/
def splitCharAux (sep : Char) : List Char → List (List Char)
  | [] => [[]]
  | c :: rest =>
    match splitCharAux sep rest with
    | [] => [[]]
    | grp :: grps => if c = sep then [] :: grp :: grps else (c :: grp) :: grps

/-- Model of Python `s.split(sep)` for a one-character separator. -/
def pySplit (sep : Char) (s : String) : List String :=
  (splitCharAux sep s.data).map (fun g => ⟨g⟩)

/-- Decimal digit of a character, as used when scanning date strings. -/
def digit? (c : Char) : Option Nat :=
  if c.isDigit then some (c.toNat - 48) else none

/-- All characters are decimal digits. -/
def charsAllDigits (cs : List Char) : Bool := cs.all (·.isDigit)

/-- Numeric value of a digit string. -/
def charsToNat (cs : List Char) : Nat :=
  cs.foldl (fun a c => a * 10 + (c.toNat - 48)) 0

/-- Model of Python `int(s)` (sign and decimal digits; underscores and other
rarely used notations are not modelled). Returns `none` where `int` raises
`ValueError`. -/
def pyInt (s : String) : Option Int :=
  match (pyStrip s).data with
  | [] => none
  | '-' :: ds =>
    if ds ≠ [] ∧ charsAllDigits ds then some (-(charsToNat ds : Int)) else none
  | '+' :: ds =>
    if ds ≠ [] ∧ charsAllDigits ds then some (charsToNat ds : Int) else none
  | ds =>
    if charsAllDigits ds then some (charsToNat ds : Int) else none

/-- Helper for `pyFloat`: integer-part digits and fraction-part digits to a
pair of numerator and power-of-ten denominator. -/
def floatOfParts (ip fp : List Char) : Int × Nat :=
  ((charsToNat ip * 10 ^ fp.length + charsToNat fp : Nat), 10 ^ fp.length)

/-- Unsigned decimal literal: `digits`, `digits.`, `.digits` or
`digits.digits`, at least one digit overall. -/
def pyFloatCore (cs : List Char) : Option (Int × Nat) :=
  match splitCharAux '.' cs with
  | [ip] =>
    if ip ≠ [] ∧ charsAllDigits ip then some (floatOfParts ip []) else none
  | [ip, fp] =>
    if (ip ≠ [] ∨ fp ≠ []) ∧ charsAllDigits ip ∧ charsAllDigits fp then
      some (floatOfParts ip fp)
    else none
  | _ => none

/-- Model of Python `float(s)` restricted to plain decimal notation
(exponents, `inf` and `nan` are not modelled; the reports only carry plain
decimals). Returns `none` where `float` raises `ValueError`. The value is kept
as an exact numerator/denominator pair. -/
def pyFloat (s : String) : Option (Int × Nat) :=
  match (pyStrip s).data with
  | [] => none
  | '-' :: ds => (pyFloatCore ds).map (fun p => (-p.1, p.2))
  | '+' :: ds => pyFloatCore ds
  | ds => pyFloatCore ds

/-- The date formats that appear in the repository:
`%Y-%m-%d`, `%m/%d/%Y`, `%d/%m/%Y` and `%d-%m-%Y`. -/
inductive DateFmt where
  | ymdDash
  | mdySlash
  | dmySlash
  | dmyDash
deriving DecidableEq

/-- Exactly four decimal digits (CPython `_strptime` directive `%Y`). -/
def parse4 : List Char → Option (Nat × List Char)
  | a :: b :: c :: d :: rest =>
    match digit? a, digit? b, digit? c, digit? d with
    | some x1, some x2, some x3, some x4 =>
      some (((x1 * 10 + x2) * 10 + x3) * 10 + x4, rest)
    | _, _, _, _ => none
  | _ => none

/-- One or two decimal digits with the range alternation used by the CPython
`_strptime` directives `%m` and `%d`: a two-digit value in `[lo, hi]` is
preferred, otherwise a single digit in `[1, 9]`. -/
def parse12 (lo hi : Nat) : List Char → Option (Nat × List Char)
  | [] => none
  | a :: rest =>
    match digit? a with
    | none => none
    | some x =>
      match rest with
      | [] => if 1 ≤ x ∧ x ≤ 9 then some (x, []) else none
      | b :: rest2 =>
        match digit? b with
        | none => if 1 ≤ x ∧ x ≤ 9 then some (x, rest) else none
        | some y =>
          if lo ≤ x * 10 + y ∧ x * 10 + y ≤ hi then some (x * 10 + y, rest2)
          else if 1 ≤ x ∧ x ≤ 9 then some (x, rest)
          else none

/-- A literal separator character. -/
def litP (c : Char) : List Char → Option (List Char)
  | x :: rest => if x = c then some rest else none
  | [] => none

/-- Scan `%Y sep %m sep %d`. -/
def parseYMD (sep : Char) (cs : List Char) : Option (Nat × Nat × Nat) :=
  match parse4 cs with
  | none => none
  | some (y, r1) =>
    match litP sep r1 with
    | none => none
    | some r2 =>
      match parse12 1 12 r2 with
      | none => none
      | some (m, r3) =>
        match litP sep r3 with
        | none => none
        | some r4 =>
          match parse12 1 31 r4 with
          | none => none
          | some (d, r5) => if r5 = [] then some (y, m, d) else none

/-- Scan `%m sep %d sep %Y`. -/
def parseMDY (sep : Char) (cs : List Char) : Option (Nat × Nat × Nat) :=
  match parse12 1 12 cs with
  | none => none
  | some (m, r1) =>
    match litP sep r1 with
    | none => none
    | some r2 =>
      match parse12 1 31 r2 with
      | none => none
      | some (d, r3) =>
        match litP sep r3 with
        | none => none
        | some r4 =>
          match parse4 r4 with
          | none => none
          | some (y, r5) => if r5 = [] then some (y, m, d) else none

/-- Scan `%d sep %m sep %Y`. -/
def parseDMY (sep : Char) (cs : List Char) : Option (Nat × Nat × Nat) :=
  match parse12 1 31 cs with
  | none => none
  | some (d, r1) =>
    match litP sep r1 with
    | none => none
    | some r2 =>
      match parse12 1 12 r2 with
      | none => none
      | some (m, r3) =>
        match litP sep r3 with
        | none => none
        | some r4 =>
          match parse4 r4 with
          | none => none
          | some (y, r5) => if r5 = [] then some (y, m, d) else none

/-- Raw directive scan of a format over a character list. -/
def runFmt : DateFmt → List Char → Option (Nat × Nat × Nat)
  | .ymdDash, cs => parseYMD '-' cs
  | .mdySlash, cs => parseMDY '/' cs
  | .dmySlash, cs => parseDMY '/' cs
  | .dmyDash, cs => parseDMY '-' cs

/-- Gregorian leap year. -/
def isLeapYear (y : Nat) : Bool :=
  (y % 4 = 0 ∧ y % 100 ≠ 0) ∨ y % 400 = 0

/-- Length of a month. -/
def daysInMonth (y m : Nat) : Nat :=
  if m = 2 then (if isLeapYear y then 29 else 28)
  else if m = 4 ∨ m = 6 ∨ m = 9 ∨ m = 11 then 30
  else 31

/-- The range checks `datetime` performs on a parsed date. -/
def validYmd (y m d : Nat) : Bool :=
  1 ≤ y ∧ y ≤ 9999 ∧ 1 ≤ m ∧ m ≤ 12 ∧ 1 ≤ d ∧ d ≤ daysInMonth y m

/-- Model of `datetime.strptime(s, fmt)` for the repository's formats,
returning the parsed `(year, month, day)` or `none` where Python raises
`ValueError` (bad shape, trailing junk, or out-of-range component). -/
def strptime (f : DateFmt) (s : String) : Option (Nat × Nat × Nat) :=
  match runFmt f s.data with
  | some (y, m, d) => if validYmd y m d then some (y, m, d) else none
  | none => none

/-- Two-digit zero-padded decimal rendering (`%02d`, values below 100). -/
def pad2 (n : Nat) : List Char :=
  [Nat.digitChar (n / 10 % 10), Nat.digitChar (n % 10)]

/-- Four-digit zero-padded decimal rendering (`%04d`, values below 10000). -/
def pad4 (n : Nat) : List Char :=
  [Nat.digitChar (n / 1000 % 10), Nat.digitChar (n / 100 % 10),
   Nat.digitChar (n / 10 % 10), Nat.digitChar (n % 10)]

/-- The `YYYY-MM-DD` date component of `datetime.isoformat()`. -/
def isoDateChars (y m d : Nat) : List Char :=
  pad4 y ++ '-' :: (pad2 m ++ '-' :: pad2 d)

/-- The `YYYY-MM-DD` date component as a string. -/
def isoDateStr (y m d : Nat) : String := ⟨isoDateChars y m d⟩

/-- `datetime.isoformat()` of a midnight datetime: date component followed by
`T00:00:00`. -/
def isoTimestamp (y m d : Nat) : String := isoDateStr y m d ++ "T00:00:00"

/-- Embedding of `AppStoreStream.convert_date` (client.py, lines 127-146):
empty input gives `None`, the input is stripped, re-checked for emptiness,
parsed with `strptime`, and rendered with `isoformat()`; parse failure is
logged and gives `None`. -/
def convert_date (dateStr : String) (fmt : DateFmt) : Option String :=
  if dateStr = "" then none
  else
    let s := pyStrip dateStr
    if s = "" then none
    else
      match strptime fmt s with
      | some (y, m, d) => some (isoTimestamp y m d)
      | none => none

/-- Record values: Python strings, ints, floats (kept as exact
numerator/denominator pairs), `None`, and the list used by `csv.DictReader`
for overflow columns. -/
inductive Value where
  | vStr (s : String)
  | vInt (n : Int)
  | vNum (num : Int) (den : Nat)
  | vNone
  | vList (l : List String)
deriving DecidableEq

/-- Dictionary keys: `csv.DictReader` uses the `None` key (`restkey`) for
overflow columns, all other keys are strings. -/
abbrev Key := Option String

/-- A Python dict of record fields, as an insertion-ordered association list
with unique keys. -/
abbrev Record := List (Key × Value)

/-- `d[k] = v` on a dict: overwrite in place if the key exists (keeping its
position), otherwise append. -/
def setField : Record → Key → Value → Record
  | [], k, v => [(k, v)]
  | (k', v') :: r, k, v =>
    if k' = k then (k, v) :: r else (k', v') :: setField r k v

/-- `d.get(k)` on a dict. -/
def getField : Record → Key → Option Value
  | [], _ => none
  | (k', v) :: r, k => if k' = k then some v else getField r k

/-- Python `.lower()` on one character (ASCII range, which covers the report
headers). -/
def pyLowerChar (c : Char) : Char :=
  if 65 ≤ c.toNat ∧ c.toNat ≤ 90 then Char.ofNat (c.toNat + 32) else c

/-- Python `.replace(' ', '_')` on one character. -/
def replaceSpaceChar (c : Char) : Char := if c = ' ' then '_' else c

/-- Embedding of the header-token normalisation of `get_records`
(client.py, line 104): `col.strip().replace(' ', '_').lower()`. -/
def normalizeCol (col : String) : String :=
  ⟨((pyStrip col).data.map replaceSpaceChar).map pyLowerChar⟩

/-- Python truthiness of a record value (used by the `if record[field]:`
guard of `process_record`). -/
def truthy : Value → Bool
  | .vStr s => s ≠ ""
  | .vInt n => n ≠ 0
  | .vNum num _ => num ≠ 0
  | .vNone => false
  | .vList l => l ≠ []

/-- `int(value)` on a record value (only string and int inputs arise in the
pipeline; other shapes are treated as conversion failures). -/
def pyIntV : Value → Option Value
  | .vStr s => (pyInt s).map .vInt
  | .vInt n => some (.vInt n)
  | _ => none

/-- `float(value)` on a record value. -/
def pyNumV : Value → Option Value
  | .vStr s => (pyFloat s).map (fun p => .vNum p.1 p.2)
  | .vInt n => some (.vNum n 1)
  | .vNum num den => some (.vNum num den)
  | _ => none

/-- Embedding of `AppStoreStream.convert_fields` (client.py, lines 148-156):
for each listed field present and non-`None`, convert it with the target
type, or set it to `None` on `ValueError`. -/
def convertFields (record : Record) (fields : List Key)
    (target : Value → Option Value) : Record :=
  fields.foldl
    (fun r f =>
      match getField r f with
      | some v =>
        if v ≠ .vNone then
          match target v with
          | some v' => setField r f v'
          | none => setField r f .vNone
        else r
      | none => r)
    record

/-- The per-stream conversion configuration (`float_fields`, `int_fields`,
`date_fields` attributes of `AppStoreStream`). -/
structure StreamCfg where
  floatFields : Option (List Key)
  intFields : Option (List Key)
  dateFields : Option (List (Key × DateFmt))

/-- The configuration the constructor installs (client.py, lines 34-36): all
three field sets are `None`, and no stream subclass in the repository
overrides them. -/
def defaultCfg : StreamCfg := ⟨none, none, none⟩

/-- Result of `self.convert_date` applied to a date-field value. -/
def convertDateV (v : Value) (fmt : DateFmt) : Value :=
  match v with
  | .vStr s =>
    match convert_date s fmt with
    | some t => .vStr t
    | none => .vNone
  | _ => .vNone

/-- Embedding of `AppStoreStream.process_record` (client.py, lines 59-72):
convert the declared float fields, then int fields, then date fields (the
date branch only fires when the value is present and truthy), and return the
record. In Python the record is mutated in place and returned, so the return
value and the caller's `record` variable are the same object. -/
def processRecord (cfg : StreamCfg) (r : Record) : Record :=
  let r1 := match cfg.floatFields with
    | some fs => convertFields r fs pyNumV
    | none => r
  let r2 := match cfg.intFields with
    | some fs => convertFields r1 fs pyIntV
    | none => r1
  match cfg.dateFields with
  | some dfs =>
    dfs.foldl
      (fun r fd =>
        match getField r fd.1 with
        | some v => if truthy v then setField r fd.1 (convertDateV v fd.2) else r
        | none => r)
      r2
  | none => r2

/-- Events traced by one run of `get_records`: a `download_data` call for a
report date, a yielded record, and an `update_stream_state` call. -/
inductive Event where
  | download (date : Int)
  | yld (r : Record)
  | updateState (date : Int)
deriving DecidableEq

/-- Field names derived from the first line of a payload (client.py,
lines 103-104): read the first line, strip it, split on tabs, and normalise
each column token. -/
def headerFieldnames (payload : String) : List String :=
  (pySplit '\t' (pyStrip ((pySplit '\n' payload).headD ""))).map normalizeCol

/-- The data lines handed to `csv.DictReader`: everything after the first
line; the reader skips blank lines. -/
def payloadDataLines (payload : String) : List String :=
  ((pySplit '\n' payload).tail).filter (fun l => l != "")

/-- `dict(zip(fieldnames, row))`: later duplicates of a key overwrite the
earlier value, as in a Python dict comprehension over pairs. -/
def dictOfZip (ks vs : List String) : Record :=
  (List.zip ks vs).foldl (fun r kv => setField r (some kv.1) (.vStr kv.2)) []

/-- One `csv.DictReader` row: zip values to field names; extra values go to
the `None` rest key, missing fields are filled with `None`. -/
def zipRow (fieldnames row : List String) : Record :=
  let d := dictOfZip fieldnames row
  if fieldnames.length < row.length then
    setField d none (.vList (row.drop fieldnames.length))
  else if row.length < fieldnames.length then
    (fieldnames.drop row.length).foldl (fun r k => setField r (some k) .vNone) d
  else d

/-- The record built for one data row in the body of the `for record in
reader` loop (client.py, lines 108-114): the `DictReader` row, then
`_line_id`, `_time_extracted` and `_api_report_date` are assigned, then
`process_record` converts typed fields in place. -/
def mkRowRecord (cfg : StreamCfg) (fieldnames : List String)
    (reportDateStr timeStr : String) (row : String) (lineId : Int) : Record :=
  let rec0 := zipRow fieldnames (pySplit '\t' row)
  let rec1 := setField rec0 (some "_line_id") (.vInt lineId)
  let rec2 := setField rec1 (some "_time_extracted") (.vStr timeStr)
  let rec3 := setField rec2 (some "_api_report_date") (.vStr reportDateStr)
  processRecord cfg rec3

/-- The inner record loop of `get_records` (client.py, lines 108-118): for
each data row the counter is incremented, the record is built and processed,
and the loop yields `processed_record` and then `record` - in Python these
are the same mutated dict object, so both yields carry the same record.
Returns the events and the final line counter. -/
def processRows (cfg : StreamCfg) (fieldnames : List String)
    (reportDateStr timeStr : String) : List String → Int → List Event × Int
  | [], k => ([], k)
  | row :: rows, k =>
    let r := mkRowRecord cfg fieldnames reportDateStr timeStr row (k + 1)
    let rest := processRows cfg fieldnames reportDateStr timeStr rows (k + 1)
    (.yld r :: .yld r :: rest.1, rest.2)

/-- Parsing and emission for one downloaded payload (client.py,
lines 100-118). -/
def processPayload (cfg : StreamCfg) (reportDateStr timeStr : String)
    (payload : String) (lineId : Int) : List Event × Int :=
  processRows cfg (headerFieldnames payload) reportDateStr timeStr
    (payloadDataLines payload) lineId

/-- The `while start_date <= date_limit` loop of `get_records` (client.py,
lines 94-124), driven by explicit fuel (the caller passes exactly the number
of remaining periods). Each iteration calls `download_data`; on success the
payload is parsed and its records yielded, on `APIError` the failure is only
logged; either way the loop then increments the date and calls
`update_stream_state` with the incremented date. -/
def getRecordsLoop (download : Int → Except Unit String) (cfg : StreamCfg)
    (renderDate : Int → String) (timeStr : String) (dateLimit : Int) :
    Nat → Int → Int → List Event
  | 0, _, _ => []
  | fuel + 1, startDate, lineId =>
    if startDate ≤ dateLimit then
      match download startDate with
      | .ok payload =>
        let res := processPayload cfg (renderDate startDate) timeStr payload lineId
        Event.download startDate :: res.1
          ++ Event.updateState (startDate + 1)
          :: getRecordsLoop download cfg renderDate timeStr dateLimit fuel
              (startDate + 1) res.2
      | .error _ =>
        Event.download startDate
          :: Event.updateState (startDate + 1)
          :: getRecordsLoop download cfg renderDate timeStr dateLimit fuel
              (startDate + 1) lineId
    else []

/-- Embedding of `AppStoreStream.get_records` (client.py, lines 83-124) from
a given start ordinal: `date_limit` is `now` minus two days, the line counter
starts at zero, and the loop runs while `start_date <= date_limit`. Dates are
proleptic Gregorian ordinals; `download` stands for the dynamically
dispatched `download_data`, `renderDate` for `get_report_date`, and `timeStr`
for the `utcnow` extraction timestamp. -/
def get_records (download : Int → Except Unit String) (cfg : StreamCfg)
    (renderDate : Int → String) (timeStr : String) (now startDate : Int) :
    List Event :=
  getRecordsLoop download cfg renderDate timeStr (now - 2)
    ((now - 2 + 1 - startDate).toNat) startDate 0

/-- Embedding of `AppStoreStream.get_start_date` (client.py, lines 42-49) as
called by `get_records`: parse the configured `start_date` (default
`2024-01-01`) with format `%Y-%m-%d`, returning `None` on failure. -/
def get_start_date (configStart : Option String) : Option (Nat × Nat × Nat) :=
  strptime .ymdDash (configStart.getD "2024-01-01")

/-- Days in the months before month `m` of year `y`. -/
def daysBeforeMonth (y m : Nat) : Nat :=
  (List.range (m - 1)).foldl (fun acc i => acc + daysInMonth y (i + 1)) 0

/-- Proleptic Gregorian ordinal of a calendar date (as used by `datetime`
date arithmetic, where adding `timedelta(days=1)` adds one to the ordinal). -/
def toOrdinal (y m d : Nat) : Int :=
  (365 * (y - 1) + (y - 1) / 4 - (y - 1) / 100 + (y - 1) / 400
    + daysBeforeMonth y m + d : Nat)

/-- `get_records` from the configured start date: resolve the start date via
`get_start_date` and run the fetch loop from its ordinal; if the start date
cannot be determined the run yields nothing (client.py, lines 85-88). -/
def get_records_full (download : Int → Except Unit String) (cfg : StreamCfg)
    (renderDate : Int → String) (timeStr : String)
    (configStart : Option String) (now : Int) : List Event :=
  match get_start_date configStart with
  | none => []
  | some (y, m, d) =>
    get_records download cfg renderDate timeStr now (toOrdinal y m d)

/-- The report dates passed to `download_data` in a trace. -/
def downloadsOf (events : List Event) : List Int :=
  events.filterMap (fun e => match e with | .download d => some d | _ => none)

/-- The records yielded in a trace. -/
def yieldsOf (events : List Event) : List Record :=
  events.filterMap (fun e => match e with | .yld r => some r | _ => none)

/-- The `_line_id` value carried by a record (0 when absent or non-integer;
every yielded record of the pipeline carries an integer `_line_id`). -/
def lineIdOf (r : Record) : Int :=
  match getField r (some "_line_id") with
  | some (.vInt n) => n
  | _ => 0

/-- The `_line_id` values carried by a list of records. -/
def lineIdVals (rs : List Record) : List Int := rs.map lineIdOf

/-- Each element doubled in place: `dupEach [a, b] = [a, a, b, b]`. -/
def dupEach : List α → List α
  | [] => []
  | a :: l => a :: a :: dupEach l

/-- A list is a doubling of some list. -/
def IsDoubled (l : List α) : Prop := ∃ m, l = dupEach m

/-- `idsFrom a n = [a + 1, a + 2, ..., a + n]`. -/
def idsFrom (a : Int) : Nat → List Int
  | 0 => []
  | n + 1 => (a + 1) :: idsFrom (a + 1) n

/-- Number of data rows contributed by each period of the fetch loop. -/
def rowsCountLoop (download : Int → Except Unit String) (dateLimit : Int) :
    Nat → Int → Nat
  | 0, _ => 0
  | fuel + 1, startDate =>
    if startDate ≤ dateLimit then
      (match download startDate with
       | .ok payload => (payloadDataLines payload).length
       | .error _ => 0) + rowsCountLoop download dateLimit fuel (startDate + 1)
    else 0

/-- Total number of data rows a run of `get_records` reads. -/
def rowsTotal (download : Int → Except Unit String) (now startDate : Int) :
    Nat :=
  rowsCountLoop download (now - 2) ((now - 2 + 1 - startDate).toNat) startDate

/-- Setting a field makes it readable. -/
theorem getField_setField_self (r : Record) (k : Key) (v : Value) :
    getField (setField r k v) k = some v := by
  induction r with
  | nil => simp [setField, getField]
  | cons kv r ih =>
    obtain ⟨k', v'⟩ := kv
    by_cases h : k' = k
    · simp [setField, getField, h]
    · simp [setField, getField, h, ih]

/-- Setting one field leaves the others unchanged. -/
theorem getField_setField_ne (r : Record) (k k' : Key) (v : Value)
    (h : k ≠ k') : getField (setField r k' v) k = getField r k := by
  induction r with
  | nil => simp [setField, getField, Ne.symm h]
  | cons kv r ih =>
    obtain ⟨k0, v0⟩ := kv
    by_cases h0 : k0 = k'
    · subst h0
      simp [setField, getField, Ne.symm h]
    · by_cases h1 : k0 = k
      · simp [setField, getField, h0, h1, h]
      · simp [setField, getField, h0, h1, ih]

@[simp] theorem yieldsOf_nil : yieldsOf [] = [] := rfl

@[simp] theorem yieldsOf_cons_download (d : Int) (l : List Event) :
    yieldsOf (Event.download d :: l) = yieldsOf l := rfl

@[simp] theorem yieldsOf_cons_update (d : Int) (l : List Event) :
    yieldsOf (Event.updateState d :: l) = yieldsOf l := rfl

@[simp] theorem yieldsOf_cons_yld (r : Record) (l : List Event) :
    yieldsOf (Event.yld r :: l) = r :: yieldsOf l := rfl

@[simp] theorem yieldsOf_append (l1 l2 : List Event) :
    yieldsOf (l1 ++ l2) = yieldsOf l1 ++ yieldsOf l2 :=
  List.filterMap_append l1 l2 _

@[simp] theorem downloadsOf_nil : downloadsOf [] = [] := rfl

@[simp] theorem downloadsOf_cons_download (d : Int) (l : List Event) :
    downloadsOf (Event.download d :: l) = d :: downloadsOf l := rfl

@[simp] theorem downloadsOf_cons_update (d : Int) (l : List Event) :
    downloadsOf (Event.updateState d :: l) = downloadsOf l := rfl

@[simp] theorem downloadsOf_cons_yld (r : Record) (l : List Event) :
    downloadsOf (Event.yld r :: l) = downloadsOf l := rfl

@[simp] theorem downloadsOf_append (l1 l2 : List Event) :
    downloadsOf (l1 ++ l2) = downloadsOf l1 ++ downloadsOf l2 :=
  List.filterMap_append l1 l2 _

@[simp] theorem lineIdVals_nil : lineIdVals [] = [] := rfl

@[simp] theorem lineIdVals_cons (r : Record) (l : List Record) :
    lineIdVals (r :: l) = lineIdOf r :: lineIdVals l := rfl

@[simp] theorem lineIdVals_append (l1 l2 : List Record) :
    lineIdVals (l1 ++ l2) = lineIdVals l1 ++ lineIdVals l2 :=
  List.map_append _ l1 l2

/-- Doubling distributes over append. -/
theorem dupEach_append (l1 l2 : List α) :
    dupEach (l1 ++ l2) = dupEach l1 ++ dupEach l2 := by
  induction l1 with
  | nil => rfl
  | cons a l ih => simp [dupEach, ih]

/-- Mapping commutes with doubling. -/
theorem map_dupEach (f : α → β) (l : List α) :
    (dupEach l).map f = dupEach (l.map f) := by
  induction l with
  | nil => rfl
  | cons a l ih => simp [dupEach, ih]

/-- `lineIdVals` commutes with doubling. -/
theorem lineIdVals_dupEach (l : List Record) :
    lineIdVals (dupEach l) = dupEach (lineIdVals l) :=
  map_dupEach lineIdOf l

/-- Splitting a block of consecutive ids. -/
theorem idsFrom_append (n1 n2 : Nat) :
    ∀ a : Int, idsFrom a (n1 + n2) = idsFrom a n1 ++ idsFrom (a + n1) n2 := by
  induction n1 with
  | zero => intro a; simp [idsFrom]
  | succ n ih =>
    intro a
    have h1 : n + 1 + n2 = (n + n2) + 1 := by omega
    rw [h1, idsFrom, ih (a + 1), idsFrom]
    simp only [List.cons_append]
    have h2 : a + 1 + (n : Int) = a + ((n : Nat) + 1 : Nat) := by push_cast; ring
    rw [h2]

/-- The records built for the data rows of one payload, in input order. -/
def rowRecords (cfg : StreamCfg) (fieldnames : List String)
    (reportDateStr timeStr : String) : List String → Int → List Record
  | [], _ => []
  | row :: rows, k =>
    mkRowRecord cfg fieldnames reportDateStr timeStr row (k + 1)
      :: rowRecords cfg fieldnames reportDateStr timeStr rows (k + 1)

/-- The record loop yields each row's record exactly twice, in row order. -/
theorem yieldsOf_processRows (cfg : StreamCfg) (fn : List String)
    (rds ts : String) (rows : List String) :
    ∀ k, yieldsOf (processRows cfg fn rds ts rows k).1 =
      dupEach (rowRecords cfg fn rds ts rows k) := by
  induction rows with
  | nil => intro k; rfl
  | cons row rows ih =>
    intro k
    simp [processRows, rowRecords, dupEach, ih]

/-- The record loop advances the line counter once per data row. -/
theorem processRows_snd (cfg : StreamCfg) (fn : List String)
    (rds ts : String) (rows : List String) :
    ∀ k, (processRows cfg fn rds ts rows k).2 = k + rows.length := by
  induction rows with
  | nil => intro k; simp [processRows]
  | cons row rows ih =>
    intro k
    simp [processRows, ih]
    omega

/-- The record loop emits no download events. -/
theorem processRows_no_download (cfg : StreamCfg) (fn : List String)
    (rds ts : String) (rows : List String) :
    ∀ k d, Event.download d ∉ (processRows cfg fn rds ts rows k).1 := by
  induction rows with
  | nil => intro k d h; simp [processRows] at h
  | cons row rows ih =>
    intro k d h
    simp [processRows] at h
    exact ih (k + 1) d h

/-- The record loop emits no state-update events. -/
theorem processRows_no_update (cfg : StreamCfg) (fn : List String)
    (rds ts : String) (rows : List String) :
    ∀ k d, Event.updateState d ∉ (processRows cfg fn rds ts rows k).1 := by
  induction rows with
  | nil => intro k d h; simp [processRows] at h
  | cons row rows ih =>
    intro k d h
    simp [processRows] at h
    exact ih (k + 1) d h

/-- With the constructor's configuration (all conversion field sets `None`)
`process_record` returns the record unchanged. -/
theorem processRecord_defaultCfg (r : Record) :
    processRecord defaultCfg r = r := rfl

/-- The `_line_id` stamped on a row record (under the constructor's
configuration) is exactly the counter value it was built with. -/
theorem lineIdOf_mkRowRecord (fn : List String) (rds ts row : String)
    (k : Int) : lineIdOf (mkRowRecord defaultCfg fn rds ts row k) = k := by
  unfold mkRowRecord lineIdOf
  rw [processRecord_defaultCfg]
  rw [getField_setField_ne _ _ _ _ (by simp),
      getField_setField_ne _ _ _ _ (by simp),
      getField_setField_self]

/-- The `_line_id` values of one payload's records are consecutive. -/
theorem lineIdVals_rowRecords (fn : List String) (rds ts : String)
    (rows : List String) :
    ∀ k, lineIdVals (rowRecords defaultCfg fn rds ts rows k) =
      idsFrom k rows.length := by
  induction rows with
  | nil => intro k; rfl
  | cons row rows ih =>
    intro k
    simp [rowRecords, idsFrom, lineIdOf_mkRowRecord, ih]

/-- `processPayload` is the record loop over the payload's header and data
lines. -/
theorem processPayload_eq (cfg : StreamCfg) (rds ts payload : String)
    (k : Int) :
    processPayload cfg rds ts payload k =
      processRows cfg (headerFieldnames payload) rds ts
        (payloadDataLines payload) k := rfl

/-- Every download event the loop emits is for a date within the limit. -/
theorem loop_download_le (download : Int → Except Unit String)
    (cfg : StreamCfg) (rd : Int → String) (ts : String) (limit : Int) :
    ∀ fuel (start k d : Int),
      Event.download d ∈ getRecordsLoop download cfg rd ts limit fuel start k →
      d ≤ limit := by
  intro fuel
  induction fuel with
  | zero => intro start k d h; simp [getRecordsLoop] at h
  | succ fuel ih =>
    intro start k d h
    by_cases hle : start ≤ limit
    · rw [getRecordsLoop, if_pos hle] at h
      cases hdl : download start with
      | ok payload =>
        rw [hdl] at h
        rcases List.mem_cons.mp h with h | h
        · injection h with h; subst h; exact hle
        rcases List.mem_append.mp h with h | h
        · exact absurd h (processRows_no_download cfg _ _ _ _ _ _)
        rcases List.mem_cons.mp h with h | h
        · exact Event.noConfusion h
        · exact ih (start + 1) _ d h
      | error err =>
        rw [hdl] at h
        rcases List.mem_cons.mp h with h | h
        · injection h with h; subst h; exact hle
        rcases List.mem_cons.mp h with h | h
        · exact Event.noConfusion h
        · exact ih (start + 1) k d h
    · rw [getRecordsLoop, if_neg hle] at h
      simp at h

/-- When there is at least one period left, the first download the loop
performs is for the current start date itself. -/
theorem loop_first_download (download : Int → Except Unit String)
    (cfg : StreamCfg) (rd : Int → String) (ts : String) (limit : Int)
    (fuel : Nat) (start k : Int) (hf : 0 < fuel) (hle : start ≤ limit) :
    (downloadsOf (getRecordsLoop download cfg rd ts limit fuel start k)).head?
      = some start := by
  cases fuel with
  | zero => omega
  | succ fuel =>
    rw [getRecordsLoop, if_pos hle]
    cases hdl : download start with
    | ok payload => simp
    | error err => simp

/-- The loop calls `update_stream_state` with the incremented date for every
period in range, whatever the download outcomes were. -/
theorem loop_update_mem (download : Int → Except Unit String)
    (cfg : StreamCfg) (rd : Int → String) (ts : String) (limit : Int) :
    ∀ fuel (start k e : Int), (limit + 1 - start).toNat ≤ fuel →
      start ≤ e → e ≤ limit →
      Event.updateState (e + 1) ∈
        getRecordsLoop download cfg rd ts limit fuel start k := by
  intro fuel
  induction fuel with
  | zero => intro start k e hf h1 h2; omega
  | succ fuel ih =>
    intro start k e hf h1 h2
    have hle : start ≤ limit := le_trans h1 h2
    rw [getRecordsLoop, if_pos hle]
    by_cases he : e = start
    · subst he
      cases hdl : download e with
      | ok payload =>
        exact List.mem_cons_of_mem _
          (List.mem_append_right _ (List.mem_cons_self _ _))
      | error err =>
        exact List.mem_cons_of_mem _ (List.mem_cons_self _ _)
    · have hnext : start + 1 ≤ e := by omega
      have hf' : (limit + 1 - (start + 1)).toNat ≤ fuel := by omega
      cases hdl : download start with
      | ok payload =>
        exact List.mem_cons_of_mem _ (List.mem_append_right _
          (List.mem_cons_of_mem _ (ih (start + 1) _ e hf' hnext h2)))
      | error err =>
        exact List.mem_cons_of_mem _
          (List.mem_cons_of_mem _ (ih (start + 1) k e hf' hnext h2))

/-- The records the loop yields always come in consecutive identical pairs. -/
theorem loop_yields_doubled (download : Int → Except Unit String)
    (cfg : StreamCfg) (rd : Int → String) (ts : String) (limit : Int) :
    ∀ fuel (start k : Int),
      IsDoubled (yieldsOf (getRecordsLoop download cfg rd ts limit fuel start k)) := by
  intro fuel
  induction fuel with
  | zero => intro start k; exact ⟨[], rfl⟩
  | succ fuel ih =>
    intro start k
    by_cases hle : start ≤ limit
    · rw [getRecordsLoop, if_pos hle]
      cases hdl : download start with
      | ok payload =>
        obtain ⟨m2, hm2⟩ := ih (start + 1)
          (processPayload cfg (rd start) ts payload k).2
        refine ⟨rowRecords cfg (headerFieldnames payload) (rd start) ts
          (payloadDataLines payload) k ++ m2, ?_⟩
        simp only [yieldsOf_cons_download, yieldsOf_append,
          yieldsOf_cons_update, hm2, dupEach_append]
        rw [← hm2]
        congr 1
        exact yieldsOf_processRows cfg _ _ _ _ k
      | error err =>
        simpa using ih (start + 1) k
    · rw [getRecordsLoop, if_neg hle]
      exact ⟨[], rfl⟩

/-- With the constructor's configuration, the `_line_id` values yielded by
the loop are the block `k+1 .. k+n` with each value repeated twice, where `n`
counts the data rows of the remaining periods. -/
theorem loop_line_ids (download : Int → Except Unit String)
    (rd : Int → String) (ts : String) (limit : Int) :
    ∀ fuel (start k : Int),
      lineIdVals (yieldsOf
          (getRecordsLoop download defaultCfg rd ts limit fuel start k)) =
        dupEach (idsFrom k (rowsCountLoop download limit fuel start)) := by
  intro fuel
  induction fuel with
  | zero => intro start k; rfl
  | succ fuel ih =>
    intro start k
    by_cases hle : start ≤ limit
    · rw [getRecordsLoop, if_pos hle, rowsCountLoop, if_pos hle]
      cases hdl : download start with
      | ok payload =>
        simp only [yieldsOf_cons_download, yieldsOf_append,
          yieldsOf_cons_update, lineIdVals_append, processPayload_eq]
        rw [yieldsOf_processRows, lineIdVals_dupEach, lineIdVals_rowRecords,
          processRows_snd, ih (start + 1) (k + (payloadDataLines payload).length)]
        rw [idsFrom_append, dupEach_append]
      | error err =>
        simp only [yieldsOf_cons_download, yieldsOf_cons_update]
        rw [ih (start + 1) k]
        simp
    · rw [getRecordsLoop, if_neg hle, rowsCountLoop, if_neg hle]
      rfl

/-- C1 counterexample: with a download that always raises `APIError`, a run
over the two periods `0` and `1` still calls `update_stream_state` past each
failed period (with dates `1` and `2`), refuting the claim that state is not
advanced or persisted past a failed period. -/
theorem get_records_failed_download_advances_cex :
    get_records (fun _ => .error ()) defaultCfg (fun _ => "") "" 3 0 =
      [.download 0, .updateState 1, .download 1, .updateState 2] := by decide

/-- C1 (amended): for every period in range - including every period whose
download raises `APIError` - `get_records` merely logs the failure and still
calls `update_stream_state` with the date one past that period; the
replication state is always advanced past a failed period. -/
theorem get_records_updates_state_past_every_period
    (download : Int → Except Unit String) (cfg : StreamCfg)
    (rd : Int → String) (ts : String) (now start e : Int)
    (h1 : start ≤ e) (h2 : e ≤ now - 2) :
    Event.updateState (e + 1) ∈ get_records download cfg rd ts now start := by
  unfold get_records
  exact loop_update_mem download cfg rd ts (now - 2) _ start 0 e (by omega) h1 h2

/-- Witness for C1: a concrete failed period whose state is still advanced. -/
theorem get_records_updates_state_past_every_period_witness :
    (0 : Int) ≤ 0 ∧ (0 : Int) ≤ 3 - 2 ∧
      Event.updateState (0 + 1) ∈
        get_records (fun _ => .error ()) defaultCfg (fun _ => "") "" 3 0 :=
  ⟨le_refl 0, by decide,
    get_records_updates_state_past_every_period (fun _ => .error ())
      defaultCfg (fun _ => "") "" 3 0 0 (le_refl 0) (by decide)⟩

/-- C2 counterexample: resuming with stored date `2024-05-10`, the first
report period requested is `2024-05-10` itself - which differs from
`2024-05-11` - refuting the claim that fetching begins at the stored date
plus one day. -/
theorem get_records_first_fetch_cex :
    (downloadsOf (get_records_full (fun _ => .ok "") defaultCfg (fun _ => "")
        "" (some "2024-05-10") (toOrdinal 2024 5 13))).head? =
      some (toOrdinal 2024 5 10) ∧
    toOrdinal 2024 5 10 ≠ toOrdinal 2024 5 11 := by decide

/-- C2 (amended): for every stored/configured start date `d`, a run of the
stream begins fetching at `d` itself (not `d` plus one increment): the first
report period requested by `get_records` equals the parsed start date, so the
last completed period is re-processed on resume. -/
theorem get_records_full_first_fetch
    (download : Int → Except Unit String) (cfg : StreamCfg)
    (rd : Int → String) (ts : String) (configStart : Option String)
    (now : Int) (y m d : Nat)
    (h : get_start_date configStart = some (y, m, d))
    (h2 : toOrdinal y m d ≤ now - 2) :
    (downloadsOf (get_records_full download cfg rd ts configStart now)).head?
      = some (toOrdinal y m d) := by
  unfold get_records_full
  rw [h]
  unfold get_records
  exact loop_first_download download cfg rd ts (now - 2) _ _ 0 (by omega) h2

/-- Witness for C2: a concrete resume whose first fetch is the stored date. -/
theorem get_records_full_first_fetch_witness :
    get_start_date (some "2024-03-05") = some (2024, 3, 5) ∧
    toOrdinal 2024 3 5 ≤ toOrdinal 2024 3 10 - 2 ∧
    (downloadsOf (get_records_full (fun _ => .ok "") defaultCfg (fun _ => "")
        "" (some "2024-03-05") (toOrdinal 2024 3 10))).head? =
      some (toOrdinal 2024 3 5) :=
  ⟨by decide, by decide,
    get_records_full_first_fetch (fun _ => .ok "") defaultCfg (fun _ => "")
      "" (some "2024-03-05") (toOrdinal 2024 3 10) 2024 3 5 (by decide)
      (by decide)⟩

/-- C5 counterexample: a run over three periods with one data row each
yields the `_line_id` sequence `[1, 1, 2, 2, 3, 3]`, which is not the
strictly increasing sequence `1, 2, 3, ...` the claim states (each id
appears twice because every record is yielded twice). -/
theorem get_records_line_ids_cex :
    lineIdVals (yieldsOf (get_records (fun _ => .ok "H\nX") defaultCfg
        (fun _ => "") "" 4 0)) = [1, 1, 2, 2, 3, 3] ∧
    ¬ List.Chain' (· < ·) ([1, 1, 2, 2, 3, 3] : List Int) := by
  constructor
  · decide
  · simp [List.chain'_cons]

/-- C5 (amended): within one run the line counter increments once per data
row, starting at 1 with no gaps and no resets across periods, but each
record is yielded twice, so the `_line_id` sequence over the yielded records
is `1, 1, 2, 2, 3, 3, ...` up to the total number of data rows. -/
theorem get_records_line_id_sequence
    (download : Int → Except Unit String) (rd : Int → String) (ts : String)
    (now start : Int) :
    lineIdVals (yieldsOf (get_records download defaultCfg rd ts now start)) =
      dupEach (idsFrom 0 (rowsTotal download now start)) := by
  unfold get_records rowsTotal
  exact loop_line_ids download rd ts (now - 2) _ start 0

/-- C8: every report date passed to `download_data` during a run is at or
before `now` minus the two-day safety lag, and when the start date already
exceeds that boundary the run performs no work at all (the loop terminates
immediately). -/
theorem get_records_download_le
    (download : Int → Except Unit String) (cfg : StreamCfg)
    (rd : Int → String) (ts : String) (now start : Int) :
    (∀ d : Int, Event.download d ∈ get_records download cfg rd ts now start →
        d ≤ now - 2) ∧
    (now - 2 < start → get_records download cfg rd ts now start = []) := by
  constructor
  · intro d h
    exact loop_download_le download cfg rd ts (now - 2) _ start 0 d h
  · intro hlt
    unfold get_records
    have h0 : (now - 2 + 1 - start).toNat = 0 := by omega
    rw [h0]
    rfl

/-- Witness for C8: a concrete download event, shown to be within the
boundary by the theorem. -/
theorem get_records_download_le_witness :
    (Event.download 0 ∈ get_records (fun _ => .ok "") defaultCfg
        (fun _ => "") "" 2 0) ∧ (0 : Int) ≤ 2 - 2 :=
  ⟨by decide, (get_records_download_le (fun _ => .ok "") defaultCfg
      (fun _ => "") "" 2 0).1 0 (by decide)⟩

/-- C10: in every run of `get_records`, the yielded records come in
consecutive identical pairs: `process_record` mutates the row dict in place
and returns it, and the loop body yields `processed_record` and then
`record`, which are the same mapping - so every record appears exactly
twice, consecutively, in the emitted stream. -/
theorem get_records_yields_doubled
    (download : Int → Except Unit String) (cfg : StreamCfg)
    (rd : Int → String) (ts : String) (now start : Int) :
    IsDoubled (yieldsOf (get_records download cfg rd ts now start)) := by
  unfold get_records
  exact loop_yields_doubled download cfg rd ts (now - 2) _ start 0

/-- Rendering a digit and scanning it back is the identity. -/
theorem digit?_digitChar : ∀ k < 10, digit? (Nat.digitChar k) = some k := by
  decide

/-- Scanning a zero-padded four-digit year recovers the year. -/
theorem parse4_pad4 (y : Nat) (rest : List Char) (hy : y ≤ 9999) :
    parse4 (pad4 y ++ rest) = some (y, rest) := by
  have h1 : y / 1000 % 10 < 10 := Nat.mod_lt _ (by norm_num)
  have h2 : y / 100 % 10 < 10 := Nat.mod_lt _ (by norm_num)
  have h3 : y / 10 % 10 < 10 := Nat.mod_lt _ (by norm_num)
  have h4 : y % 10 < 10 := Nat.mod_lt _ (by norm_num)
  have hv : ((y / 1000 % 10 * 10 + y / 100 % 10) * 10 + y / 10 % 10) * 10
      + y % 10 = y := by omega
  simp only [pad4, List.cons_append, parse4, digit?_digitChar _ h1,
    digit?_digitChar _ h2, digit?_digitChar _ h3, digit?_digitChar _ h4]
  simp [hv]

/-- Scanning a zero-padded two-digit month or day recovers the value. -/
theorem parse12_pad2 (lo hi n : Nat) (rest : List Char) (h1 : lo ≤ n)
    (h2 : n ≤ hi) (h3 : hi ≤ 99) :
    parse12 lo hi (pad2 n ++ rest) = some (n, rest) := by
  have ha : n / 10 % 10 < 10 := Nat.mod_lt _ (by norm_num)
  have hb : n % 10 < 10 := Nat.mod_lt _ (by norm_num)
  have hv : n / 10 % 10 * 10 + n % 10 = n := by omega
  simp only [pad2, List.cons_append, parse12, digit?_digitChar _ ha,
    digit?_digitChar _ hb]
  simp [hv, h1, h2]

/-- No month is longer than 31 days. -/
theorem daysInMonth_le (y m : Nat) : daysInMonth y m ≤ 31 := by
  unfold daysInMonth
  split
  · split <;> omega
  · split <;> omega

/-- A successful `strptime` only returns range-checked dates. -/
theorem strptime_valid (f : DateFmt) (s : String) (y m d : Nat)
    (h : strptime f s = some (y, m, d)) : validYmd y m d = true := by
  unfold strptime at h
  cases hr : runFmt f s.data with
  | none => rw [hr] at h; cases h
  | some t =>
    obtain ⟨y', m', d'⟩ := t
    rw [hr] at h
    by_cases hv : validYmd y' m' d' = true
    · simp [hv] at h
      obtain ⟨rfl, rfl, rfl⟩ := h
      exact hv
    · simp [hv] at h

/-- `strptime` rejects the empty string for every format. -/
theorem strptime_empty (f : DateFmt) : strptime f "" = none := by
  cases f <;> decide

/-- Scanning the ISO date characters of a range-checked date recovers it. -/
theorem runFmt_iso (y m d : Nat) (hy2 : y ≤ 9999) (hm1 : 1 ≤ m)
    (hm2 : m ≤ 12) (hd1 : 1 ≤ d) (hd31 : d ≤ 31) :
    runFmt .ymdDash (isoDateChars y m d) = some (y, m, d) := by
  have e1 := parse4_pad4 y ('-' :: (pad2 m ++ '-' :: pad2 d)) hy2
  have e2 : litP '-' ('-' :: (pad2 m ++ '-' :: pad2 d)) =
      some (pad2 m ++ '-' :: pad2 d) := by simp [litP]
  have e3 := parse12_pad2 1 12 m ('-' :: pad2 d) hm1 hm2 (by norm_num)
  have e4 : litP '-' ('-' :: pad2 d) = some (pad2 d) := by simp [litP]
  have e5 : parse12 1 31 (pad2 d) = some (d, []) := by
    have h5 := parse12_pad2 1 31 d [] hd1 hd31 (by norm_num)
    rwa [List.append_nil] at h5
  show parseYMD '-' (isoDateChars y m d) = some (y, m, d)
  simp only [parseYMD, isoDateChars, e1, e2, e3, e4, e5]
  simp

/-- Scanning the rendered ISO date component of a valid date recovers the
date. -/
theorem strptime_isoDateStr (y m d : Nat) (h : validYmd y m d = true) :
    strptime .ymdDash (isoDateStr y m d) = some (y, m, d) := by
  have hb : 1 ≤ y ∧ y ≤ 9999 ∧ 1 ≤ m ∧ m ≤ 12 ∧ 1 ≤ d ∧ d ≤ daysInMonth y m :=
    of_decide_eq_true h
  obtain ⟨hy1, hy2, hm1, hm2, hd1, hd2⟩ := hb
  have hd31 : d ≤ 31 := le_trans hd2 (daysInMonth_le y m)
  have e0 : (isoDateStr y m d).data = isoDateChars y m d := rfl
  simp only [strptime, e0, runFmt_iso y m d hy2 hm1 hm2 hd1 hd31, h,
    if_true]

/-- C6: for every date string that is valid under a format `f` (its stripped
form parses), `convert_date` returns the ISO-8601 timestamp rendered from
the parsed date, and the date component of that timestamp parses back (under
`%Y-%m-%d`) to exactly the same date - the round trip preserves the date. -/
theorem convert_date_roundtrip (f : DateFmt) (s : String) (y m d : Nat)
    (h : strptime f (pyStrip s) = some (y, m, d)) :
    convert_date s f = some (isoTimestamp y m d) ∧
      strptime .ymdDash (isoDateStr y m d) = some (y, m, d) := by
  have hs : s ≠ "" := by
    intro he
    subst he
    rw [show pyStrip "" = "" from rfl, strptime_empty] at h
    cases h
  have hs2 : pyStrip s ≠ "" := by
    intro he
    rw [he, strptime_empty] at h
    cases h
  constructor
  · simp only [convert_date, if_neg hs, if_neg hs2, h]
  · exact strptime_isoDateStr y m d (strptime_valid f (pyStrip s) y m d h)

/-- Witness for C6: the concrete valid date string `2024-05-01`. -/
theorem convert_date_roundtrip_witness :
    strptime .ymdDash (pyStrip "2024-05-01") = some (2024, 5, 1) ∧
    (convert_date "2024-05-01" .ymdDash = some (isoTimestamp 2024 5 1) ∧
      strptime .ymdDash (isoDateStr 2024 5 1) = some (2024, 5, 1)) :=
  ⟨by decide,
    convert_date_roundtrip .ymdDash "2024-05-01" 2024 5 1 (by decide)⟩

/-- C7: for every format, `convert_date` of the empty string and of an
unparsable string such as `not-a-date` is `None`; the embedding is a total
function, so neither case raises. -/
theorem convert_date_empty_and_invalid (f : DateFmt) :
    convert_date "" f = none ∧ convert_date "not-a-date" f = none := by
  cases f <;> exact ⟨rfl, by decide⟩

/-- `Char.ofNat` below the surrogate range is inverted by `Char.toNat`. -/
theorem toNat_charOfNat (n : Nat) (h : n < 55296) : (Char.ofNat n).toNat = n := by
  have hv : Nat.isValidChar n := Or.inl h
  simp [Char.ofNat, hv]
  rfl

/-- Characters with equal code points are equal. -/
theorem char_eq_of_toNat_eq (a b : Char) (h : a.toNat = b.toNat) : a = b := by
  apply Char.ext
  apply UInt32.ext
  exact h

/-- Code point of a lowered character. -/
theorem pyLowerChar_toNat (c : Char) :
    (pyLowerChar c).toNat =
      if 65 ≤ c.toNat ∧ c.toNat ≤ 90 then c.toNat + 32 else c.toNat := by
  by_cases h : 65 ≤ c.toNat ∧ c.toNat ≤ 90
  · rw [if_pos h]
    unfold pyLowerChar
    rw [if_pos h]
    exact toNat_charOfNat _ (by omega)
  · rw [if_neg h]
    unfold pyLowerChar
    rw [if_neg h]

/-- Lowering only moves characters into the lowercase range, so equality
with any character below code point 65 is unaffected. -/
theorem pyLowerChar_eq_low (c t : Char) (ht : t.toNat < 65) :
    pyLowerChar c = t ↔ c = t := by
  constructor
  · intro h
    have hn := congrArg Char.toNat h
    rw [pyLowerChar_toNat] at hn
    by_cases hc : 65 ≤ c.toNat ∧ c.toNat ≤ 90
    · rw [if_pos hc] at hn
      omega
    · rw [if_neg hc] at hn
      exact char_eq_of_toNat_eq _ _ hn
  · intro h
    subst h
    unfold pyLowerChar
    rw [if_neg (by omega)]

/-- The space-replacement step never produces a space. -/
theorem replaceSpaceChar_ne_space (c : Char) : replaceSpaceChar c ≠ ' ' := by
  unfold replaceSpaceChar
  by_cases h : c = ' '
  · rw [if_pos h]
    decide
  · rw [if_neg h]
    exact h

/-- The space-replacement step preserves hyphens exactly. -/
theorem replaceSpaceChar_eq_dash (c : Char) :
    replaceSpaceChar c = '-' ↔ c = '-' := by
  unfold replaceSpaceChar
  by_cases h : c = ' '
  · subst h
    rw [if_pos rfl]
    constructor
    · intro h2; exact absurd h2 (by decide)
    · intro h2; exact absurd h2 (by decide)
  · rw [if_neg h]

/-- Counting is preserved by a map that moves no character onto or away from
the counted one. -/
theorem count_map_eq (l : List Char) (f : Char → Char) (a : Char)
    (hf : ∀ c, f c = a ↔ c = a) : (l.map f).count a = l.count a := by
  induction l with
  | nil => rfl
  | cons c l ih =>
    simp only [List.map_cons, List.count_cons, ih, beq_iff_eq, hf c]

/-- C4 counterexample: the header token `Begin-Date` is normalised to
`begin-date` - the hyphen is NOT replaced with an underscore - refuting the
claim that both spaces and hyphens are replaced. -/
theorem normalizeCol_hyphen_cex :
    normalizeCol "Begin-Date" = "begin-date" ∧
      normalizeCol "Begin-Date" ≠ "begin_date" := by decide

/-- C4 (amended): each header token is normalised by trimming surrounding
whitespace, replacing spaces (only) with underscores, and lowercasing: the
result contains no space and no ASCII uppercase letter (code points 65-90),
and hyphens are preserved unchanged rather than replaced. -/
theorem normalizeCol_spec (col : String) :
    (∀ c, c ∈ (normalizeCol col).data →
      c ≠ ' ' ∧ ¬(65 ≤ c.toNat ∧ c.toNat ≤ 90)) ∧
    (normalizeCol col).data.count '-' = (pyStrip col).data.count '-' := by
  have e : (normalizeCol col).data =
      ((pyStrip col).data.map replaceSpaceChar).map pyLowerChar := rfl
  constructor
  · intro c hc
    rw [e] at hc
    rcases List.mem_map.mp hc with ⟨x, hx, rfl⟩
    rcases List.mem_map.mp hx with ⟨x0, hx0, rfl⟩
    constructor
    · intro h
      rw [pyLowerChar_eq_low _ ' ' (by decide)] at h
      exact replaceSpaceChar_ne_space x0 h
    · intro hu
      obtain ⟨hu1, hu2⟩ := hu
      have ht := pyLowerChar_toNat (replaceSpaceChar x0)
      by_cases hc2 : 65 ≤ (replaceSpaceChar x0).toNat ∧
          (replaceSpaceChar x0).toNat ≤ 90
      · rw [if_pos hc2] at ht
        omega
      · rw [if_neg hc2] at ht
        rw [ht] at hu1 hu2
        exact hc2 ⟨hu1, hu2⟩
  · rw [e,
      count_map_eq _ pyLowerChar '-' (fun c => pyLowerChar_eq_low c '-' (by decide)),
      count_map_eq _ replaceSpaceChar '-' replaceSpaceChar_eq_dash]

/-- Witness for C4: a character of the normalised `App Name` header. -/
theorem normalizeCol_spec_witness :
    ('p' ∈ (normalizeCol "App Name").data) ∧
      ('p' ≠ ' ' ∧ ¬(65 ≤ 'p'.toNat ∧ 'p'.toNat ≤ 90)) :=
  ⟨by decide, (normalizeCol_spec "App Name").1 'p' (by decide)⟩

/-- A converted date value as stored in a record: the ISO string, or `None`
when conversion failed. -/
def dateVal : Option String → Value
  | some s => .vStr s
  | none => .vNone

/-- Embedding of `SalesReportStream.parse_report_line` (streams.py,
lines 66-108). Note this helper is defined by the stream class but never
invoked by `get_records`. The row is split on tabs; it is skipped (`None`)
when the first field is the repeated header token `Provider` or there are
fewer than 15 fields; a `ValueError` from `int(fields[7])`,
`float(fields[8])` or (when present) `float(fields[15])` is caught and also
returns `None`; otherwise the record dict is built, with fields 16 onward
defaulting to the empty string when absent and `customer_price` defaulting
to `0.0`. -/
def salesParseReportLine (line : String) : Option Record :=
  let fields := pySplit '\t' line
  if fields.headD "" = "Provider" ∨ fields.length < 15 then none
  else
    match pyInt (fields.getD 7 "") with
    | none => none
    | some units =>
      match pyFloat (fields.getD 8 "") with
      | none => none
      | some dp =>
        match (if 15 < fields.length then pyFloat (fields.getD 15 "")
               else some (0, 1)) with
        | none => none
        | some cp =>
          some [(some "provider", .vStr (fields.getD 0 "")),
                (some "provider_country", .vStr (fields.getD 1 "")),
                (some "sku", .vStr (fields.getD 2 "")),
                (some "developer", .vStr (fields.getD 3 "")),
                (some "title", .vStr (fields.getD 4 "")),
                (some "version", .vStr (fields.getD 5 "")),
                (some "product_type_identifier", .vStr (fields.getD 6 "")),
                (some "units", .vInt units),
                (some "developer_proceeds", .vNum dp.1 dp.2),
                (some "begin_date",
                  dateVal (convert_date (fields.getD 9 "") .mdySlash)),
                (some "end_date",
                  dateVal (convert_date (fields.getD 10 "") .mdySlash)),
                (some "customer_currency", .vStr (fields.getD 11 "")),
                (some "country_code", .vStr (fields.getD 12 "")),
                (some "currency_of_proceeds", .vStr (fields.getD 13 "")),
                (some "apple_identifier", .vStr (fields.getD 14 "")),
                (some "customer_price", .vNum cp.1 cp.2),
                (some "promo_code", .vStr (fields.getD 16 "")),
                (some "parent_identifier", .vStr (fields.getD 17 "")),
                (some "subscription", .vStr (fields.getD 18 "")),
                (some "period", .vStr (fields.getD 19 "")),
                (some "category", .vStr (fields.getD 20 "")),
                (some "cmb", .vStr (fields.getD 21 "")),
                (some "device", .vStr (fields.getD 22 "")),
                (some "supported_platforms", .vStr (fields.getD 23 "")),
                (some "proceeds_reason", .vStr (fields.getD 24 "")),
                (some "preserved_pricing", .vStr (fields.getD 25 "")),
                (some "client", .vStr (fields.getD 26 "")),
                (some "order_type", .vStr (fields.getD 27 ""))]

/-- Outcome of a Python call that may return a dict, return `None`, or raise
an uncaught `IndexError`. -/
inductive PyOutcome where
  | record (r : Record)
  | skipped
  | indexError
deriving DecidableEq

/-- Embedding of `FinancialReportStream.parse_report_line` (streams.py,
lines 409-439). The guard skips rows whose first field is `Start Date` or
with fewer than 14 fields; a `ValueError` from `int(fields[5])` is caught
and skips the row; but the body also reads `fields[17]` through
`fields[21]`, which are NOT covered by the guard - a missing index there is
an uncaught `IndexError` (the `except` clause only catches `ValueError`). -/
def finParseReportLine (line : String) : PyOutcome :=
  let fields := pySplit '\t' line
  if fields.headD "" = "Start Date" ∨ fields.length < 14 then .skipped
  else
    match pyInt (fields.getD 5 "") with
    | none => .skipped
    | some quantity =>
      match fields[17]?, fields[18]?, fields[19]?, fields[20]?, fields[21]? with
      | some f17, some f18, some f19, some f20, some f21 =>
        .record [(some "start_date",
                   dateVal (convert_date (fields.getD 0 "") .dmySlash)),
                 (some "end_date",
                   dateVal (convert_date (fields.getD 1 "") .dmySlash)),
                 (some "vendor_identifier", .vStr (fields.getD 4 "")),
                 (some "quantity", .vInt quantity),
                 (some "partner_share", .vStr (fields.getD 6 "")),
                 (some "extended_partner_share", .vStr (fields.getD 7 "")),
                 (some "partner_share_currency", .vStr (fields.getD 8 "")),
                 (some "sales_or_return", .vStr (fields.getD 9 "")),
                 (some "apple_identifier", .vStr (fields.getD 10 "")),
                 (some "title", .vStr (fields.getD 11 "")),
                 (some "product_type_identifier", .vStr (fields.getD 12 "")),
                 (some "country_of_sale", .vStr f17),
                 (some "pre_order_flag", .vStr f18),
                 (some "promo_code", .vStr f19),
                 (some "customer_price", .vStr f20),
                 (some "customer_currency", .vStr f21)]
      | _, _, _, _, _ => .indexError

/-- C3 counterexample: on the spec's end-to-end input, `get_records` yields
the `Total_Rows` footer row as a record (twice, like every row): no sentinel
filtering happens on the records `get_records` produces. -/
theorem get_records_includes_sentinel_row_cex :
    ((yieldsOf (get_records
        (fun _ => .ok "Provider\tUnits\nAAPL\t5\nTotal_Rows\t5\n")
        defaultCfg (fun _ => "2024-05-10") "2024-05-10T00:00:00Z" 2 0)).map
      (fun r => getField r (some "provider"))) =
    [some (.vStr "AAPL"), some (.vStr "AAPL"),
     some (.vStr "Total_Rows"), some (.vStr "Total_Rows")] := by decide

/-- C3 (amended): `get_records` itself applies no sentinel filtering - every
data row of the payload becomes a record (see the counterexample). Sentinel
skipping exists only in the stream classes' `parse_report_line` helpers,
which `get_records` never calls; there, a row is excluded exactly when its
first field equals the stream's repeated header token (`Provider` for the
sales stream - not `Total_Rows`), or the row has fewer than 15 fields, or a
numeric field fails conversion; all other rows produce a record. -/
theorem salesParseReportLine_none_iff (line : String) :
    salesParseReportLine line = none ↔
      ((pySplit '\t' line).headD "" = "Provider" ∨
       (pySplit '\t' line).length < 15 ∨
       pyInt ((pySplit '\t' line).getD 7 "") = none ∨
       pyFloat ((pySplit '\t' line).getD 8 "") = none ∨
       (15 < (pySplit '\t' line).length ∧
         pyFloat ((pySplit '\t' line).getD 15 "") = none)) := by
  simp only [salesParseReportLine]
  by_cases hg : (pySplit '\t' line).headD "" = "Provider" ∨
      (pySplit '\t' line).length < 15
  · rw [if_pos hg]
    rcases hg with hg | hg <;> simp_all
  · rw [if_neg hg]
    obtain ⟨ha, hb⟩ := not_or.mp hg
    cases h7 : pyInt ((pySplit '\t' line).getD 7 "") with
    | none => simp_all
    | some u =>
      cases h8 : pyFloat ((pySplit '\t' line).getD 8 "") with
      | none => simp_all
      | some dp =>
        by_cases hlen : 15 < (pySplit '\t' line).length
        · cases h15 : pyFloat ((pySplit '\t' line).getD 15 "") with
          | none => simp_all
          | some cp => simp_all
        · rw [if_neg hlen]
          constructor
          · intro h
            exact absurd h (by simp)
          · intro h
            rcases h with h | h | h | h | h
            · exact absurd h ha
            · exact absurd h hb
            · exact absurd h (by simp [h7])
            · exact absurd h (by simp [h8])
            · exact absurd h.1 hlen

/-- Witness for C3: the `Total_Rows` footer row of the spec's end-to-end
example is excluded by `parse_report_line` only for having too few fields,
not because of a `Total_Rows` sentinel. -/
theorem salesParseReportLine_none_iff_witness :
    salesParseReportLine "Total_Rows\t5" = none ↔
      ((pySplit '\t' "Total_Rows\t5").headD "" = "Provider" ∨
       (pySplit '\t' "Total_Rows\t5").length < 15 ∨
       pyInt ((pySplit '\t' "Total_Rows\t5").getD 7 "") = none ∨
       pyFloat ((pySplit '\t' "Total_Rows\t5").getD 8 "") = none ∨
       (15 < (pySplit '\t' "Total_Rows\t5").length ∧
         pyFloat ((pySplit '\t' "Total_Rows\t5").getD 15 "") = none)) :=
  salesParseReportLine_none_iff "Total_Rows\t5"

/-- C9: a data row with exactly 14 tab-separated fields passes the
`len(fields) < 14` guard of `FinancialReportStream.parse_report_line`, and
the body then raises an uncaught `IndexError` at `fields[17]` instead of
skipping the row with a warning. -/
theorem finParseReportLine_14_fields_indexError :
    (pySplit '\t'
      "01/01/2024\t31/01/2024\tA\tB\tV\t5\tPS\tEPS\tUSD\tS\tAID\tT\tPTI\tX").length
      = 14 ∧
    finParseReportLine
      "01/01/2024\t31/01/2024\tA\tB\tV\t5\tPS\tEPS\tUSD\tS\tAID\tT\tPTI\tX"
      = .indexError := by decide
